import Mathlib

/-!
Shallow embedding of the avenor-system trading backend:
the Trade Store (common/database.py), the Execution Service
(execution/service.py), the Strategy Engine (strategy/service.py),
the Health Monitor (deploy/healthcheck.py) and the bus relay (proxy.py).
Times and prices are modelled as rationals, byte frames as lists of
naturals, and the Python dictionaries as association lists / structures
with optional fields.
-/

namespace Avenor

/-- The payload dictionary handed to `record_trade` (a Python dict:
every field may be absent, hence `Option`). Mirrors the keys used by
`database.record_trade` and `strategy.service.main`. -/
structure TradeData where
  idempotency_key : Option String
  symbol : Option String
  trade_type : Option String
  quantity : Option Int
  price : Option ℚ
  status : Option String
  is_test_trade : Option Bool
  deriving Repr, DecidableEq

/-- A row of the `trades` table (database.initialize_database):
`idempotency_key UUID UNIQUE NOT NULL`, `symbol`, `trade_type`,
`quantity`, `price` (nullable), `status`, `is_test_trade`. The
surrogate `id` and `timestamp_utc` columns play no role in any claim
and are omitted. -/
structure TradeRecord where
  idempotency_key : String
  symbol : String
  trade_type : String
  quantity : Int
  price : Option ℚ
  status : String
  is_test_trade : Bool
  deriving Repr, DecidableEq

/-- The Trade Store: the rows of the `trades` table in insertion order. -/
abbrev Store := List TradeRecord

/-- Outcome of a database call seen by the caller: a returned boolean,
or a raised exception. -/
inductive DbResult where
  | ok (b : Bool)
  | raised
  deriving Repr, DecidableEq

/-- Whether some row of the store carries this idempotency key
(the `UNIQUE` constraint consults exactly this). -/
def hasKey (store : Store) (k : String) : Bool :=
  store.any (fun r => r.idempotency_key = k)

/-- `database.record_trade`, lines 59-112. First the required-keys
check (lines 71-74) which returns `False` before any database access;
then the `INSERT`, which raises `UniqueViolation` on a duplicate
`idempotency_key` — caught, rolled back, and reported as `False`
(lines 101-105). Any other database error (`insertErr` injects one)
is rolled back and re-raised (lines 106-110). The returned store is
the state of the table after the call. -/
def record_tradeE (insertErr : Bool) (store : Store) (td : TradeData) :
    Store × DbResult :=
  match td.idempotency_key, td.symbol, td.trade_type, td.quantity, td.status with
  | some k, some sym, some tt, some q, some st =>
      if insertErr then
        (store, .raised)
      else if hasKey store k then
        (store, .ok false)
      else
        (store ++ [{ idempotency_key := k, symbol := sym, trade_type := tt,
                     quantity := q, price := td.price, status := st,
                     is_test_trade := td.is_test_trade.getD false }], .ok true)
  | _, _, _, _, _ => (store, .ok false)

/-- `record_trade` on a healthy database connection. -/
def record_trade (store : Store) (td : TradeData) : Store × DbResult :=
  record_tradeE false store td

/-- `database.update_trade_status`, lines 116-138: `UPDATE trades SET
status = %s WHERE idempotency_key = %s`; returns `False` when no row
matched, `True` otherwise. `updateErr` injects a database error, which
is rolled back (store unchanged) and re-raised (lines 133-136). -/
def update_trade_statusE (updateErr : Bool) (store : Store)
    (key new_status : String) : Store × DbResult :=
  if updateErr then
    (store, .raised)
  else
    (store.map (fun r =>
        if r.idempotency_key = key then
          { r with status := new_status }
        else r),
     .ok (hasKey store key))

/-- `update_trade_status` on a healthy database connection. -/
def update_trade_status (store : Store) (key new_status : String) :
    Store × DbResult :=
  update_trade_statusE false store key new_status

/-- `database.get_pending_trades`, lines 140-162, success path:
`SELECT * FROM trades WHERE status = 'PENDING'`. (On a database error
the Python function returns `None`; `startup` models that branch.) -/
def get_pending_trades (store : Store) : List TradeRecord :=
  store.filter (fun r => r.status = "PENDING")

/-- `execution.service.recover_pending_trades`, lines 35-53, with the
pending-trade query succeeding: every fetched `PENDING` row is updated
to `FAILED_RECOVERED` via `update_trade_status`. -/
def recover_pending_trades (store : Store) : Store :=
  (get_pending_trades store).foldl
    (fun s t => (update_trade_status s t.idempotency_key "FAILED_RECOVERED").1)
    store

/-- Startup sequence of `execution.service.main`, lines 72-78, plus
`recover_pending_trades` lines 40-43.  `initOk` is whether
`initialize_database` succeeds; `pendingQueryOk` is whether the
recovery query `get_pending_trades` succeeds (on failure it returns
`None` and `recover_pending_trades` logs and returns normally).
Result: `none` when the service aborts startup (`main` returns),
`some store` when it proceeds into the message loop with that store
state. -/
def startup (initOk pendingQueryOk : Bool) (store : Store) : Option Store :=
  if initOk = false then
    none
  else if pendingQueryOk = false then
    some store
  else
    some (recover_pending_trades store)

/-- An exception escaping the per-message processing code in
`execution.service.main`: a `KeyError` from a dictionary access, or a
database error re-raised by a `database` helper. Either lands in the
outer `except Exception` handler and terminates the message loop. -/
inductive ExecError where
  | keyError
  | dbError
  deriving Repr, DecidableEq

/-- A `TRADE_CONFIRMATION` payload (execution/service.py lines
133-137); the timestamp field plays no role in any claim. -/
structure Confirmation where
  idempotency_key : String
  status : String
  deriving Repr, DecidableEq

/-- Result of processing one trade-order message: the store state, the
confirmations published, how many times the (simulated) broker fill
was invoked, and whether an exception escaped. -/
structure ExecOutcome where
  store : Store
  confirmations : List Confirmation
  brokerCalls : Nat
  error : Option ExecError
  deriving Repr, DecidableEq

/-- The per-message body of `execution.service.main`, lines 116-143:
set `status = 'PENDING'` on the payload, `record_trade` it; on `True`
invoke the simulated broker fill (`final_status = "FILLED"`),
`update_trade_status`, and publish the confirmation; on `False` log
the duplicate — the log line reads `trade_order['idempotency_key']`,
a `KeyError` when that key is absent. `insertErr` / `updateErr`
inject database errors into the two persistence calls. -/
def processOrder (insertErr updateErr : Bool) (store : Store)
    (order : TradeData) : ExecOutcome :=
  let order' := { order with status := some "PENDING" }
  match record_tradeE insertErr store order' with
  | (store1, .raised) =>
      { store := store1, confirmations := [], brokerCalls := 0,
        error := some .dbError }
  | (store1, .ok true) =>
      match order'.idempotency_key with
      | none =>
          { store := store1, confirmations := [], brokerCalls := 1,
            error := some .keyError }
      | some k =>
          match update_trade_statusE updateErr store1 k "FILLED" with
          | (store2, .raised) =>
              { store := store2, confirmations := [], brokerCalls := 1,
                error := some .dbError }
          | (store2, .ok _) =>
              { store := store2,
                confirmations := [{ idempotency_key := k, status := "FILLED" }],
                brokerCalls := 1, error := none }
  | (store1, .ok false) =>
      match order'.idempotency_key with
      | none =>
          { store := store1, confirmations := [], brokerCalls := 0,
            error := some .keyError }
      | some _ =>
          { store := store1, confirmations := [], brokerCalls := 0,
            error := none }

/-- The message loop of `execution.service.main`, lines 96-152, over a
queue of incoming orders (each tagged with the error injections of its
database calls): messages are processed in order; the first escaping
exception reaches the outer `except Exception` handler and ends the
loop, so the failing message is never retried and later messages are
never seen. Returns the final store, all published confirmations, and
the error that ended the loop (if any). -/
def runLoop (store : Store) :
    List (TradeData × Bool × Bool) → Store × List Confirmation × Option ExecError
  | [] => (store, [], none)
  | (o, ie, ue) :: rest =>
      let out := processOrder ie ue store o
      match out.error with
      | some e => (out.store, out.confirmations, some e)
      | none =>
          let (s2, confs, err) := runLoop out.store rest
          (s2, out.confirmations ++ confs, err)

/-! Strategy Engine (strategy/service.py). The Pending Order map
`pending_orders` is a Python dict keyed by `idempotency_key`; we model
it as an association list in insertion order, each entry holding the
`sent_at` timestamp (the stored order payload is never read back by the
code, only `sent_at` is). -/

/-- strategy/service.py line 25: `ORDER_TIMEOUT_S = 300`. -/
def ORDER_TIMEOUT_S : ℚ := 300

/-- strategy/service.py line 104: buy when `data.get("price") < 95.30`. -/
def strat_threshold : ℚ := 953 / 10

/-- The pending-order map: `idempotency_key` to `sent_at`. -/
abbrev PendingMap := List (String × ℚ)

/-- Python dict assignment `m[k] = v`: overwrite an existing entry in
place, else append (insertion order). -/
def dictInsert (k : String) (v : ℚ) (m : PendingMap) : PendingMap :=
  if m.any (fun e => e.1 = k) then
    m.map (fun e => if e.1 = k then (k, v) else e)
  else
    m ++ [(k, v)]

/-- Python dict deletion `del m[k]`. -/
def dictDelete (k : String) (m : PendingMap) : PendingMap :=
  m.filter (fun e => e.1 ≠ k)

/-- A message the Strategy Engine subscriber can receive in one loop
iteration (topic dispatch of lines 102 and 116), or `timeout` when the
poll returned nothing. A confirmation carries `data.get('idempotency_key')`,
hence `Option`. -/
inductive StratMsg where
  | price (symbol : String) (p : ℚ)
  | confirmation (key : Option String)
  | timeout
  deriving Repr, DecidableEq

/-- Message handling of `strategy.service.main`, lines 97-123. On a
price below the threshold: publish a fresh order (`freshKey` is the
`uuid.uuid4()` value) and track it in `pending_orders` with the send
time. On a confirmation: delete the key if present, else log and
discard. Returns the new map and the orders published. -/
def strat_handleMsg (now : ℚ) (freshKey : String) (testMode : Bool)
    (msg : StratMsg) (pending : PendingMap) : PendingMap × List TradeData :=
  match msg with
  | .price sym p =>
      if p < strat_threshold then
        let order : TradeData :=
          { idempotency_key := some freshKey, symbol := some sym,
            trade_type := some "BUY_TO_OPEN", quantity := some 100,
            price := some p, status := some "NEW",
            is_test_trade := some testMode }
        (dictInsert freshKey now pending, [order])
      else
        (pending, [])
  | .confirmation (some k) =>
      if pending.any (fun e => e.1 = k) then
        (dictDelete k pending, [])
      else
        (pending, [])
  | .confirmation none => (pending, [])
  | .timeout => (pending, [])

/-- The timeout sweep of `strategy.service.main`, lines 127-134: collect
`keys_to_remove` (each collection logs one critical alert), then delete
each collected key. Returns the new map and the alerted keys. -/
def strat_sweep (now : ℚ) (pending : PendingMap) : PendingMap × List String :=
  let keys_to_remove :=
    (pending.filter (fun e => now - e.2 > ORDER_TIMEOUT_S)).map Prod.fst
  (keys_to_remove.foldl (fun m k => dictDelete k m) pending, keys_to_remove)

/-- One iteration of the Strategy Engine main loop (lines 77-134,
heartbeat emission aside): handle the received message (or poll
timeout), then run the timeout sweep. Returns the new pending map, the
orders published, and the alerted keys. -/
def strat_step (now : ℚ) (freshKey : String) (testMode : Bool)
    (msg : StratMsg) (pending : PendingMap) :
    PendingMap × List TradeData × List String :=
  let (p1, pub) := strat_handleMsg now freshKey testMode msg pending
  let (p2, alerts) := strat_sweep now p1
  (p2, pub, alerts)

/-! Health Monitor (deploy/healthcheck.py). -/

/-- The liveness table `last_seen`: service name to last-heartbeat
time. -/
abbrev LivenessTable := List (String × ℚ)

/-- healthcheck.py lines 44-48: the table is seeded with the current
time for the three known services. -/
def monitor_init (now : ℚ) : LivenessTable :=
  [("market_data", now), ("strategy", now), ("execution", now)]

/-- healthcheck.py line 51: `STALE_THRESHOLD_S = HEARTBEAT_INTERVAL_S * 3`
(the interval is configuration, kept as a parameter). -/
def STALE_THRESHOLD_S (heartbeat_interval : ℚ) : ℚ :=
  heartbeat_interval * 3

/-- Heartbeat receipt, healthcheck.py lines 60-69: `data.get('service')`
(hence `Option`); a recognized name has its last-seen time set to now,
an unrecognized one only logs a warning — the table is not changed. -/
def monitor_handleHeartbeat (now : ℚ) (name : Option String)
    (tbl : LivenessTable) : LivenessTable :=
  match name with
  | some s =>
      if tbl.any (fun e => e.1 = s) then
        tbl.map (fun e => if e.1 = s then (s, now) else e)
      else
        tbl
  | none => tbl

/-- The periodic staleness check, healthcheck.py lines 72-78: for every
tracked service whose time since last-seen exceeds the threshold, log
one critical alert and reset its last-seen time to `now`. Returns the
new table and the alerted service names. -/
def monitor_checkStale (now thr : ℚ) (tbl : LivenessTable) :
    LivenessTable × List String :=
  (tbl.map (fun e => if now - e.2 > thr then (e.1, now) else e),
   (tbl.filter (fun e => now - e.2 > thr)).map Prod.fst)

/-! Bus relay (proxy.py). -/

/-- One ZeroMQ frame: a byte string. -/
abbrev Frame := List Nat

/-- proxy.py lines 64-66: `message = frontend.recv_multipart();
backend.send_multipart(message)` — the multipart message (topic frame
and payload frame alike) is rebroadcast as received. -/
def relayForward (msg : List Frame) : List Frame := msg

/-- The relay loop over the sequence of messages received on the
publish-facing endpoint from a single publisher (ZeroMQ delivers them
in send order): each is forwarded in turn, so the outbound sequence is
in the same order. -/
def relayRun (msgs : List (List Frame)) : List (List Frame) :=
  msgs.map relayForward

/-! Helper lemmas about the recovery sweep. -/

/-- Folding key-by-key status updates equals a single map over the
store keyed on membership of the key list. -/
lemma foldl_update_eq_map (ks : List String) (s : Store) :
    ks.foldl
        (fun st k => st.map (fun r =>
          if r.idempotency_key = k
          then { r with status := "FAILED_RECOVERED" } else r)) s
      = s.map (fun r =>
          if r.idempotency_key ∈ ks
          then { r with status := "FAILED_RECOVERED" } else r) := by
  induction ks generalizing s with
  | nil => simp
  | cons k ks ih =>
      rw [List.foldl_cons, ih, List.map_map]
      apply List.map_congr_left
      intro r _
      by_cases hr : r.idempotency_key = k <;>
        simp [Function.comp, hr, List.mem_cons]

/-- The recovery sweep rewrites exactly the rows whose key is the key
of some fetched `PENDING` row. -/
lemma recover_eq_map_keys (s : Store) :
    recover_pending_trades s
      = s.map (fun r =>
          if r.idempotency_key ∈
              (get_pending_trades s).map (fun t => t.idempotency_key)
          then { r with status := "FAILED_RECOVERED" } else r) := by
  have hbody :
      (fun (st : Store) (t : TradeRecord) =>
          (update_trade_status st t.idempotency_key "FAILED_RECOVERED").1)
        = (fun (st : Store) (t : TradeRecord) =>
            st.map (fun r =>
              if r.idempotency_key = t.idempotency_key
              then { r with status := "FAILED_RECOVERED" } else r)) := by
    funext st t
    simp [update_trade_status, update_trade_statusE]
  have h2 := List.foldl_map (fun t : TradeRecord => t.idempotency_key)
    (fun (st : Store) (k : String) => st.map (fun r =>
      if r.idempotency_key = k
      then { r with status := "FAILED_RECOVERED" } else r))
    (get_pending_trades s) s
  rw [recover_pending_trades, hbody]
  exact h2.symm.trans
    (foldl_update_eq_map
      ((get_pending_trades s).map (fun t => t.idempotency_key)) s)

/-- Under the UNIQUE constraint on stored keys, the recovery sweep is
exactly the per-row status rewrite PENDING to FAILED_RECOVERED. -/
lemma recover_eq_map_status (s : Store)
    (hkeys : (s.map (fun r => r.idempotency_key)).Nodup) :
    recover_pending_trades s
      = s.map (fun r =>
          if r.status = "PENDING"
          then { r with status := "FAILED_RECOVERED" } else r) := by
  rw [recover_eq_map_keys]
  apply List.map_congr_left
  intro r hr
  by_cases hst : r.status = "PENDING"
  · have hmem : r.idempotency_key ∈
        (get_pending_trades s).map (fun t => t.idempotency_key) := by
      refine List.mem_map_of_mem _ ?_
      simp [get_pending_trades, List.mem_filter, hr, hst]
    simp [hmem, hst]
  · have hnot : r.idempotency_key ∉
        (get_pending_trades s).map (fun t => t.idempotency_key) := by
      intro hmem
      obtain ⟨t, ht, hkey⟩ := List.mem_map.mp hmem
      have ht' : t ∈ s ∧ t.status = "PENDING" := by
        simpa [get_pending_trades, List.mem_filter] using ht
      have : t = r := List.inj_on_of_nodup_map hkeys ht'.1 hr hkey
      exact hst (this ▸ ht'.2)
    simp [hnot, hst]

/-- A fresh-key membership fact: `hasKey store k = false` means no
stored row carries `k`. -/
lemma not_hasKey_iff (store : Store) (k : String) :
    hasKey store k = false ↔ ∀ r ∈ store, r.idempotency_key ≠ k := by
  simp [hasKey, List.any_eq_false]

/-- Case analysis on the store left by one order-processing step:
either untouched, or extended by a single new row carrying the order's
(previously unseen) key, in status PENDING (update raised) or FILLED
(update succeeded). -/
lemma processOrder_store_cases (ie ue : Bool) (store : Store)
    (order : TradeData) :
    (processOrder ie ue store order).store = store
    ∨ ∃ k sym tt q, order.idempotency_key = some k
        ∧ hasKey store k = false
        ∧ ((processOrder ie ue store order).store
              = store ++ [{ idempotency_key := k, symbol := sym,
                            trade_type := tt, quantity := q,
                            price := order.price, status := "PENDING",
                            is_test_trade := order.is_test_trade.getD false }]
           ∨ (processOrder ie ue store order).store
              = store ++ [{ idempotency_key := k, symbol := sym,
                            trade_type := tt, quantity := q,
                            price := order.price, status := "FILLED",
                            is_test_trade := order.is_test_trade.getD false }]) := by
  obtain ⟨ik, sym0, tt0, q0, pr, st, itt⟩ := order
  cases ik <;> cases sym0 <;> cases tt0 <;> cases q0 <;> cases ie <;>
    try (left; rfl)
  rename_i k sym tt q
  by_cases hdup : hasKey store k = true
  · left
    simp [processOrder, record_tradeE, hdup]
  · have hdup' : hasKey store k = false := by
      simpa using hdup
    have hvirgin := (not_hasKey_iff store k).mp hdup'
    right
    refine ⟨k, sym, tt, q, rfl, hdup', ?_⟩
    cases ue
    · right
      simp only [processOrder, record_tradeE, update_trade_statusE,
        hdup', if_false, Bool.false_eq_true, List.map_append]
      congr 1
      · calc store.map (fun r =>
              if r.idempotency_key = k
              then { r with status := "FILLED" } else r)
            = store.map id := by
              apply List.map_congr_left
              intro r hr
              simp [hvirgin r hr]
          _ = store := List.map_id store
      · simp
    · left
      simp [processOrder, record_tradeE, update_trade_statusE, hdup']

/-! Theorems. -/

/-- C1: For every trade record already stored with a given
idempotency_key, a second call to record_trade with the same key
reports "duplicate" (returns False), leaves every record in the store
unchanged, and does not raise an error to the caller. -/
theorem record_trade_duplicate_is_noop (store : Store) (td : TradeData)
    (k : String) (hk : td.idempotency_key = some k)
    (hdup : hasKey store k = true) :
    record_trade store td = (store, .ok false) := by
  obtain ⟨ik, sym, tt, q, pr, st, itt⟩ := td
  simp only at hk
  subst hk
  unfold record_trade record_tradeE
  cases sym <;> cases tt <;> cases q <;> cases st <;> simp [hdup]

theorem record_trade_duplicate_is_noop_witness :
    record_trade
        [{ idempotency_key := "11e6ad44", symbol := "TLT",
           trade_type := "BUY_TO_OPEN", quantity := 100, price := none,
           status := "FILLED", is_test_trade := false }]
        { idempotency_key := some "11e6ad44", symbol := some "TLT",
          trade_type := some "BUY_TO_OPEN", quantity := some 100,
          price := none, status := some "PENDING",
          is_test_trade := some false }
      = ([{ idempotency_key := "11e6ad44", symbol := "TLT",
            trade_type := "BUY_TO_OPEN", quantity := 100, price := none,
            status := "FILLED", is_test_trade := false }], .ok false) :=
  record_trade_duplicate_is_noop _ _ "11e6ad44" rfl (by decide)

/-- C2: with the pending-trade query succeeding, after the recovery
routine runs every record that had status PENDING has status
FAILED_RECOVERED and every record with any other status is unchanged
(row by row; the stored keys are unique by the UNIQUE constraint). -/
theorem recovery_completeness (s : Store)
    (hkeys : (s.map (fun r => r.idempotency_key)).Nodup) :
    recover_pending_trades s
      = s.map (fun r =>
          if r.status = "PENDING"
          then { r with status := "FAILED_RECOVERED" } else r) :=
  recover_eq_map_status s hkeys

theorem recovery_completeness_witness :
    recover_pending_trades
        [{ idempotency_key := "11e6ad44", symbol := "TLT",
           trade_type := "BUY_TO_OPEN", quantity := 100, price := none,
           status := "PENDING", is_test_trade := false },
         { idempotency_key := "22f7be55", symbol := "TLT",
           trade_type := "BUY_TO_OPEN", quantity := 100, price := some 95,
           status := "FILLED", is_test_trade := false },
         { idempotency_key := "33a8cf66", symbol := "TLT",
           trade_type := "BUY_TO_OPEN", quantity := 100, price := none,
           status := "PENDING", is_test_trade := true }]
      = [{ idempotency_key := "11e6ad44", symbol := "TLT",
           trade_type := "BUY_TO_OPEN", quantity := 100, price := none,
           status := "FAILED_RECOVERED", is_test_trade := false },
         { idempotency_key := "22f7be55", symbol := "TLT",
           trade_type := "BUY_TO_OPEN", quantity := 100, price := some 95,
           status := "FILLED", is_test_trade := false },
         { idempotency_key := "33a8cf66", symbol := "TLT",
           trade_type := "BUY_TO_OPEN", quantity := 100, price := none,
           status := "FAILED_RECOVERED", is_test_trade := true }] := by
  rw [recovery_completeness _ (by decide)]
  decide

/-- C3: the claim says a failing recovery query must abort startup; in
the code, when `get_pending_trades` fails (`recover_pending_trades`
lines 40-43), the error is logged and swallowed and `main` (lines
72-78) proceeds into the message loop — here concretely with a
`PENDING` record left unresolved. -/
theorem startup_proceeds_when_pending_query_fails :
    startup true false
        [{ idempotency_key := "11e6ad44", symbol := "TLT",
           trade_type := "BUY_TO_OPEN", quantity := 100, price := none,
           status := "PENDING", is_test_trade := false }]
      = some
        [{ idempotency_key := "11e6ad44", symbol := "TLT",
           trade_type := "BUY_TO_OPEN", quantity := 100, price := none,
           status := "PENDING", is_test_trade := false }] := by
  rfl

/-- C9: every multipart message received on the publish-facing
endpoint is rebroadcast with identical frames (topic and payload
bytes) and the forwarded sequence from a single publisher is exactly
the received sequence, in order. -/
theorem relay_transparency (msgs : List (List Frame)) :
    relayRun msgs = msgs ∧ ∀ msg : List Frame, relayForward msg = msg := by
  constructor
  · show msgs.map relayForward = msgs
    have h : relayForward = id := rfl
    rw [h, List.map_id]
  · intro msg
    rfl

/-- C4: a received order whose insertion reports a duplicate
idempotency_key is logged and discarded: no broker fill is invoked, no
status update happens, no confirmation is published, the processing
raises nothing, and the store keeps exactly one record for that key. -/
theorem duplicate_order_discarded (store : Store) (order : TradeData)
    (k : String) (hk : order.idempotency_key = some k)
    (hdup : hasKey store k = true)
    (hcount : store.countP (fun r => r.idempotency_key == k) = 1) :
    processOrder false false store order =
      { store := store, confirmations := [], brokerCalls := 0, error := none }
    ∧ (processOrder false false store order).store.countP
        (fun r => r.idempotency_key == k) = 1 := by
  obtain ⟨ik, sym, tt, q, pr, st, itt⟩ := order
  simp only at hk
  subst hk
  have h1 : processOrder false false store
      ⟨some k, sym, tt, q, pr, st, itt⟩ =
      { store := store, confirmations := [], brokerCalls := 0,
        error := none } := by
    cases sym <;> cases tt <;> cases q <;>
      simp [processOrder, record_tradeE, hdup]
  exact ⟨h1, by rw [h1]; exact hcount⟩

theorem duplicate_order_discarded_witness :
    processOrder false false
        [{ idempotency_key := "11e6ad44", symbol := "TLT",
           trade_type := "BUY_TO_OPEN", quantity := 100, price := none,
           status := "FILLED", is_test_trade := false }]
        { idempotency_key := some "11e6ad44", symbol := some "TLT",
          trade_type := some "BUY_TO_OPEN", quantity := some 100,
          price := some 95, status := some "NEW",
          is_test_trade := some false }
      = { store :=
            [{ idempotency_key := "11e6ad44", symbol := "TLT",
               trade_type := "BUY_TO_OPEN", quantity := 100, price := none,
               status := "FILLED", is_test_trade := false }],
          confirmations := [], brokerCalls := 0, error := none }
    ∧ (processOrder false false
        [{ idempotency_key := "11e6ad44", symbol := "TLT",
           trade_type := "BUY_TO_OPEN", quantity := 100, price := none,
           status := "FILLED", is_test_trade := false }]
        { idempotency_key := some "11e6ad44", symbol := some "TLT",
          trade_type := some "BUY_TO_OPEN", quantity := some 100,
          price := some 95, status := some "NEW",
          is_test_trade := some false }).store.countP
        (fun r => r.idempotency_key == "11e6ad44") = 1 :=
  duplicate_order_discarded _ _ "11e6ad44" rfl (by decide) (by decide)

/-- C5: the Trade Record state machine. (1) the live path only ever
inserts records in status PENDING; (2) every record already stored —
in particular one that is FILLED or FAILED_RECOVERED — survives a
live-processing step unchanged; (3) any record the live path adds
carries the order's fresh key and is PENDING or FILLED, never
FAILED_RECOVERED; (4) the recovery sweep leaves every non-PENDING
record unchanged; (5) the recovery sweep only ever turns a PENDING
record into the same record with status FAILED_RECOVERED. -/
theorem trade_record_state_machine (ie ue : Bool) (store : Store)
    (order : TradeData)
    (hkeys : (store.map (fun r => r.idempotency_key)).Nodup) :
    (∀ r ∈ (record_tradeE false store
        { order with status := some "PENDING" }).1,
      r ∈ store ∨ r.status = "PENDING")
    ∧ (∀ r ∈ store, r ∈ (processOrder ie ue store order).store)
    ∧ (∀ r ∈ (processOrder ie ue store order).store,
        r ∈ store ∨ (order.idempotency_key = some r.idempotency_key
          ∧ hasKey store r.idempotency_key = false
          ∧ (r.status = "PENDING" ∨ r.status = "FILLED")))
    ∧ (∀ r ∈ store, r.status ≠ "PENDING" → r ∈ recover_pending_trades store)
    ∧ (∀ r ∈ recover_pending_trades store,
        r ∈ store ∨ ∃ r0 ∈ store, r0.status = "PENDING"
          ∧ r = { r0 with status := "FAILED_RECOVERED" }) := by
  refine ⟨?_, ?_, ?_, ?_, ?_⟩
  · intro r hr
    obtain ⟨ik, sym0, tt0, q0, pr, st, itt⟩ := order
    cases ik <;> cases sym0 <;> cases tt0 <;> cases q0 <;>
      simp only [record_tradeE] at hr
    all_goals try exact Or.inl hr
    rename_i k sym tt q
    by_cases hdup : hasKey store k = true
    · simp only [hdup, if_true] at hr
      exact Or.inl hr
    · have hdup' : hasKey store k = false := by simpa using hdup
      simp [hdup'] at hr
      rcases hr with h | h
      · exact Or.inl h
      · subst h
        exact Or.inr rfl
  · intro r hr
    rcases processOrder_store_cases ie ue store order with
      h | ⟨k, sym, tt, q, hk, hf, h | h⟩ <;> rw [h]
    · exact hr
    · exact List.mem_append_left _ hr
    · exact List.mem_append_left _ hr
  · intro r hr
    rcases processOrder_store_cases ie ue store order with
      h | ⟨k, sym, tt, q, hk, hf, h | h⟩
    · rw [h] at hr
      exact Or.inl hr
    · rw [h] at hr
      rcases List.mem_append.mp hr with h2 | h2
      · exact Or.inl h2
      · simp only [List.mem_singleton] at h2
        subst h2
        exact Or.inr ⟨hk, hf, Or.inl rfl⟩
    · rw [h] at hr
      rcases List.mem_append.mp hr with h2 | h2
      · exact Or.inl h2
      · simp only [List.mem_singleton] at h2
        subst h2
        exact Or.inr ⟨hk, hf, Or.inr rfl⟩
  · intro r hr hst
    rw [recover_eq_map_status store hkeys]
    have h2 := List.mem_map_of_mem
      (fun r => if r.status = "PENDING"
        then { r with status := "FAILED_RECOVERED" } else r) hr
    simpa [if_neg hst] using h2
  · intro r hr
    rw [recover_eq_map_status store hkeys] at hr
    obtain ⟨r0, hr0, heq⟩ := List.mem_map.mp hr
    by_cases hst : r0.status = "PENDING"
    · right
      exact ⟨r0, hr0, hst, by rw [← heq, if_pos hst]⟩
    · left
      rw [if_neg hst] at heq
      exact heq ▸ hr0

theorem trade_record_state_machine_witness :
    (∀ r ∈ (record_tradeE false
        [({ idempotency_key := "22f7be55", symbol := "TLT",
            trade_type := "BUY_TO_OPEN", quantity := 100, price := none,
            status := "FILLED", is_test_trade := false } : TradeRecord)]
        { ({ idempotency_key := some "11e6ad44", symbol := some "TLT",
             trade_type := some "BUY_TO_OPEN", quantity := some 100,
             price := some 95, status := some "NEW",
             is_test_trade := some false } : TradeData)
          with status := some "PENDING" }).1,
      r ∈ [({ idempotency_key := "22f7be55", symbol := "TLT",
              trade_type := "BUY_TO_OPEN", quantity := 100, price := none,
              status := "FILLED", is_test_trade := false } : TradeRecord)]
        ∨ r.status = "PENDING")
    ∧ (∀ r ∈ [({ idempotency_key := "22f7be55", symbol := "TLT",
                 trade_type := "BUY_TO_OPEN", quantity := 100, price := none,
                 status := "FILLED", is_test_trade := false } : TradeRecord)],
        r ∈ (processOrder false false
          [({ idempotency_key := "22f7be55", symbol := "TLT",
              trade_type := "BUY_TO_OPEN", quantity := 100, price := none,
              status := "FILLED", is_test_trade := false } : TradeRecord)]
          { idempotency_key := some "11e6ad44", symbol := some "TLT",
            trade_type := some "BUY_TO_OPEN", quantity := some 100,
            price := some 95, status := some "NEW",
            is_test_trade := some false }).store)
    ∧ (∀ r ∈ (processOrder false false
          [({ idempotency_key := "22f7be55", symbol := "TLT",
              trade_type := "BUY_TO_OPEN", quantity := 100, price := none,
              status := "FILLED", is_test_trade := false } : TradeRecord)]
          { idempotency_key := some "11e6ad44", symbol := some "TLT",
            trade_type := some "BUY_TO_OPEN", quantity := some 100,
            price := some 95, status := some "NEW",
            is_test_trade := some false }).store,
        r ∈ [({ idempotency_key := "22f7be55", symbol := "TLT",
                trade_type := "BUY_TO_OPEN", quantity := 100, price := none,
                status := "FILLED", is_test_trade := false } : TradeRecord)]
          ∨ ((some "11e6ad44" : Option String) = some r.idempotency_key
            ∧ hasKey
                [({ idempotency_key := "22f7be55", symbol := "TLT",
                    trade_type := "BUY_TO_OPEN", quantity := 100,
                    price := none, status := "FILLED",
                    is_test_trade := false } : TradeRecord)]
                r.idempotency_key = false
            ∧ (r.status = "PENDING" ∨ r.status = "FILLED")))
    ∧ (∀ r ∈ [({ idempotency_key := "22f7be55", symbol := "TLT",
                 trade_type := "BUY_TO_OPEN", quantity := 100, price := none,
                 status := "FILLED", is_test_trade := false } : TradeRecord)],
        r.status ≠ "PENDING" →
        r ∈ recover_pending_trades
          [({ idempotency_key := "22f7be55", symbol := "TLT",
              trade_type := "BUY_TO_OPEN", quantity := 100, price := none,
              status := "FILLED", is_test_trade := false } : TradeRecord)])
    ∧ (∀ r ∈ recover_pending_trades
          [({ idempotency_key := "22f7be55", symbol := "TLT",
              trade_type := "BUY_TO_OPEN", quantity := 100, price := none,
              status := "FILLED", is_test_trade := false } : TradeRecord)],
        r ∈ [({ idempotency_key := "22f7be55", symbol := "TLT",
                trade_type := "BUY_TO_OPEN", quantity := 100, price := none,
                status := "FILLED", is_test_trade := false } : TradeRecord)]
          ∨ ∃ r0 ∈ [({ idempotency_key := "22f7be55", symbol := "TLT",
                       trade_type := "BUY_TO_OPEN", quantity := 100,
                       price := none, status := "FILLED",
                       is_test_trade := false } : TradeRecord)],
              r0.status = "PENDING"
                ∧ r = { r0 with status := "FAILED_RECOVERED" }) :=
  trade_record_state_machine false false
    [{ idempotency_key := "22f7be55", symbol := "TLT",
       trade_type := "BUY_TO_OPEN", quantity := 100, price := none,
       status := "FILLED", is_test_trade := false }]
    { idempotency_key := some "11e6ad44", symbol := some "TLT",
      trade_type := some "BUY_TO_OPEN", quantity := some 100,
      price := some 95, status := some "NEW", is_test_trade := some false }
    (by decide)

/-- C8: if a persistence operation other than the duplicate-key case
raises (the insert itself, or the status update after a successful
insert), no confirmation is published for that order, the loop ends
there — the message is never retried and later messages are never
seen — and when the failure follows a successful insert the stored
record remains in status PENDING. -/
theorem persistence_error_fatal (store : Store) (order : TradeData)
    (rest : List (TradeData × Bool × Bool)) (k : String)
    (hk : order.idempotency_key = some k)
    (hsym : ∃ x, order.symbol = some x)
    (htt : ∃ x, order.trade_type = some x)
    (hq : ∃ x, order.quantity = some x)
    (hfresh : hasKey store k = false) :
    runLoop store ((order, true, false) :: rest)
      = (store, [], some .dbError)
    ∧ ∃ rec : TradeRecord, rec.idempotency_key = k
        ∧ rec.status = "PENDING"
        ∧ runLoop store ((order, false, true) :: rest)
            = (store ++ [rec], [], some .dbError) := by
  obtain ⟨ik, sym0, tt0, q0, pr, st, itt⟩ := order
  obtain ⟨sym, hsym⟩ := hsym
  obtain ⟨tt, htt⟩ := htt
  obtain ⟨q, hq⟩ := hq
  simp only at hk hsym htt hq
  subst hk hsym htt hq
  constructor
  · simp [runLoop, processOrder, record_tradeE]
  · refine ⟨{ idempotency_key := k, symbol := sym, trade_type := tt,
              quantity := q, price := pr, status := "PENDING",
              is_test_trade := itt.getD false }, rfl, rfl, ?_⟩
    simp [runLoop, processOrder, record_tradeE, update_trade_statusE, hfresh]

theorem persistence_error_fatal_witness :
    runLoop []
        [({ idempotency_key := some "11e6ad44", symbol := some "TLT",
            trade_type := some "BUY_TO_OPEN", quantity := some 100,
            price := some 95, status := some "NEW",
            is_test_trade := some false }, true, false)]
      = ([], [], some .dbError)
    ∧ ∃ rec : TradeRecord, rec.idempotency_key = "11e6ad44"
        ∧ rec.status = "PENDING"
        ∧ runLoop []
            [({ idempotency_key := some "11e6ad44", symbol := some "TLT",
                trade_type := some "BUY_TO_OPEN", quantity := some 100,
                price := some 95, status := some "NEW",
                is_test_trade := some false }, false, true)]
            = ([] ++ [rec], [], some .dbError) :=
  persistence_error_fatal [] _ [] "11e6ad44" rfl ⟨"TLT", rfl⟩
    ⟨"BUY_TO_OPEN", rfl⟩ ⟨100, rfl⟩ (by decide)

/-- C10 counterexample: for a trade-data input missing the
idempotency_key itself, record_trade does return False without a
database operation, but the Execution Service does not treat it like a
duplicate: the duplicate-branch log line reads
trade_order of key idempotency_key and raises KeyError, aborting the
message loop instead of logging and discarding. -/
theorem missing_idempotency_key_raises :
    record_trade []
        { idempotency_key := none, symbol := some "TLT",
          trade_type := some "BUY_TO_OPEN", quantity := some 100,
          price := none, status := some "NEW", is_test_trade := some false }
      = ([], .ok false)
    ∧ processOrder false false []
        { idempotency_key := none, symbol := some "TLT",
          trade_type := some "BUY_TO_OPEN", quantity := some 100,
          price := none, status := some "NEW", is_test_trade := some false }
      = { store := [], confirmations := [], brokerCalls := 0,
          error := some .keyError } := by
  constructor <;> rfl

/-- C10 (amended): for every trade-data input missing at least one
required key, record_trade returns False without performing any
database operation (any injected database fault is unreachable and
the store is untouched); and whenever idempotency_key is present but
symbol, trade_type or quantity is missing, the Execution Service
treats the malformed order exactly like a duplicate — persists
nothing, invokes no broker fill, publishes no confirmation, raises
nothing. (When idempotency_key itself is missing the duplicate-path
log line raises KeyError instead.) -/
theorem malformed_order_treated_as_duplicate (store : Store) (td : TradeData) :
    ((td.idempotency_key = none ∨ td.symbol = none ∨ td.trade_type = none
        ∨ td.quantity = none ∨ td.status = none) →
      ∀ ie : Bool, record_tradeE ie store td = (store, DbResult.ok false))
    ∧ (∀ k, td.idempotency_key = some k →
        (td.symbol = none ∨ td.trade_type = none ∨ td.quantity = none) →
        processOrder false false store td =
          { store := store, confirmations := [], brokerCalls := 0,
            error := none }) := by
  obtain ⟨ik, sym, tt, q, pr, st, itt⟩ := td
  constructor
  · intro h ie
    cases ik <;> cases sym <;> cases tt <;> cases q <;> cases st <;>
      simp_all [record_tradeE]
  · intro k hk hmiss
    simp only at hk
    subst hk
    cases sym <;> cases tt <;> cases q <;>
      simp_all [processOrder, record_tradeE]

theorem malformed_order_treated_as_duplicate_witness :
    record_tradeE false []
        { idempotency_key := some "11e6ad44", symbol := none,
          trade_type := some "BUY_TO_OPEN", quantity := some 100,
          price := none, status := some "NEW", is_test_trade := some false }
      = ([], DbResult.ok false)
    ∧ processOrder false false []
        { idempotency_key := some "11e6ad44", symbol := none,
          trade_type := some "BUY_TO_OPEN", quantity := some 100,
          price := none, status := some "NEW", is_test_trade := some false }
      = { store := [], confirmations := [], brokerCalls := 0,
          error := none } :=
  ⟨(malformed_order_treated_as_duplicate []
      { idempotency_key := some "11e6ad44", symbol := none,
        trade_type := some "BUY_TO_OPEN", quantity := some 100,
        price := none, status := some "NEW",
        is_test_trade := some false }).1 (Or.inr (Or.inl rfl)) false,
   (malformed_order_treated_as_duplicate []
      { idempotency_key := some "11e6ad44", symbol := none,
        trade_type := some "BUY_TO_OPEN", quantity := some 100,
        price := none, status := some "NEW",
        is_test_trade := some false }).2 "11e6ad44" rfl (Or.inl rfl)⟩

/-- C7: whenever the periodic check finds service `s` stale (time
since last-seen exceeds the threshold) it raises exactly one critical
alert for `s` and resets the last-seen time of `s` to now; hence a
second check within the following threshold window (with no further
heartbeat) raises no alert for `s`; and heartbeats from unrecognized
(or absent) service names never change the table. -/
theorem staleness_detection (now thr : ℚ) (tbl : LivenessTable)
    (s : String) (t : ℚ)
    (hkeys : (tbl.map Prod.fst).Nodup)
    (hmem : (s, t) ∈ tbl) (hstale : now - t > thr) :
    (monitor_checkStale now thr tbl).2.count s = 1
    ∧ (s, now) ∈ (monitor_checkStale now thr tbl).1
    ∧ (∀ now', now' - now ≤ thr →
        (monitor_checkStale now' thr
          (monitor_checkStale now thr tbl).1).2.count s = 0)
    ∧ (∀ nowh name, tbl.any (fun e => e.1 = name) = false →
        monitor_handleHeartbeat nowh (some name) tbl = tbl)
    ∧ (∀ nowh, monitor_handleHeartbeat nowh none tbl = tbl) := by
  refine ⟨?_, ?_, ?_, ?_, ?_⟩
  · apply List.count_eq_one_of_mem
    · exact hkeys.sublist
        ((List.filter_sublist tbl).map Prod.fst)
    · exact List.mem_map.mpr
        ⟨(s, t), List.mem_filter.mpr ⟨hmem, by simpa using hstale⟩, rfl⟩
  · have h2 : (if now - t > thr then (s, now) else (s, t))
        ∈ (monitor_checkStale now thr tbl).1 :=
      List.mem_map_of_mem
        (fun e : String × ℚ => if now - e.2 > thr then (e.1, now) else e) hmem
    rwa [if_pos hstale] at h2
  · intro now' hwin
    apply List.count_eq_zero.mpr
    intro hs
    obtain ⟨e, he, hfst⟩ := List.mem_map.mp hs
    have he' := List.mem_filter.mp he
    obtain ⟨e0, he0, heq⟩ := List.mem_map.mp he'.1
    have hfst0 : e0.1 = s := by
      by_cases h0 : now - e0.2 > thr <;> simp [h0] at heq <;>
        rw [← heq] at hfst <;> exact hfst
    have he0s : e0 = (s, t) := by
      apply List.inj_on_of_nodup_map hkeys he0 hmem
      simpa using hfst0
    subst he0s
    rw [if_pos hstale] at heq
    subst heq
    have hgt : now' - now > thr := by simpa using he'.2
    exact absurd hwin (not_le.mpr hgt)
  · intro nowh name hunk
    simp [monitor_handleHeartbeat, hunk]
  · intro nowh
    rfl

theorem staleness_detection_witness :
    (monitor_checkStale 100 45 (monitor_init 0)).2.count "strategy" = 1
    ∧ ("strategy", (100 : ℚ)) ∈ (monitor_checkStale 100 45 (monitor_init 0)).1
    ∧ (∀ now', now' - 100 ≤ 45 →
        (monitor_checkStale now' 45
          (monitor_checkStale 100 45 (monitor_init 0)).1).2.count "strategy" = 0)
    ∧ (∀ nowh name, (monitor_init 0).any (fun e => e.1 = name) = false →
        monitor_handleHeartbeat nowh (some name) (monitor_init 0)
          = monitor_init 0)
    ∧ (∀ nowh, monitor_handleHeartbeat nowh none (monitor_init 0)
        = monitor_init 0) :=
  staleness_detection 100 45 (monitor_init 0) "strategy" 0
    (by decide) (by decide) (by norm_num)

/-! Helper lemmas about the Strategy Engine's pending-order map. -/

lemma any_key_eq_false {m : PendingMap} {k : String}
    (h : m.any (fun e => e.1 = k) = false) : ∀ e ∈ m, e.1 ≠ k := by
  simpa [List.any_eq_false] using h

lemma any_key_eq_true {m : PendingMap} {k : String} {t : ℚ}
    (h : (k, t) ∈ m) : m.any (fun e => e.1 = k) = true := by
  simp only [List.any_eq_true]
  exact ⟨(k, t), h, by simp⟩

lemma mem_dictDelete {k : String} {m : PendingMap} {e : String × ℚ} :
    e ∈ dictDelete k m ↔ e ∈ m ∧ e.1 ≠ k := by
  simp [dictDelete, List.mem_filter]

lemma mem_foldl_dictDelete (ks : List String) (m : PendingMap)
    (e : String × ℚ) :
    e ∈ ks.foldl (fun m k => dictDelete k m) m ↔ e ∈ m ∧ e.1 ∉ ks := by
  induction ks generalizing m with
  | nil => simp
  | cons k ks ih =>
      rw [List.foldl_cons, ih]
      simp only [mem_dictDelete, List.mem_cons, not_or]
      tauto

/-- Membership in the map left by the timeout sweep: an entry survives
iff its key was not collected for removal. -/
lemma mem_strat_sweep (now : ℚ) (m : PendingMap) (e : String × ℚ) :
    e ∈ (strat_sweep now m).1 ↔ e ∈ m
      ∧ e.1 ∉ (m.filter (fun x => now - x.2 > ORDER_TIMEOUT_S)).map Prod.fst :=
  mem_foldl_dictDelete _ m e

/-- Under unique keys, an entry's key is collected for removal iff the
entry itself is stale. -/
lemma stale_key_mem {m : PendingMap} (hkeys : (m.map Prod.fst).Nodup)
    {e : String × ℚ} (he : e ∈ m) (now : ℚ) :
    e.1 ∈ (m.filter (fun x => now - x.2 > ORDER_TIMEOUT_S)).map Prod.fst
      ↔ now - e.2 > ORDER_TIMEOUT_S := by
  constructor
  · intro hmem
    obtain ⟨x, hx, hfst⟩ := List.mem_map.mp hmem
    have hx' := List.mem_filter.mp hx
    have : x = e := List.inj_on_of_nodup_map hkeys hx'.1 he hfst
    subst this
    simpa using hx'.2
  · intro hst
    exact List.mem_map.mpr
      ⟨e, List.mem_filter.mpr ⟨he, by simpa using hst⟩, rfl⟩

/-- A tracked entry whose key vanishes in the sweep is stale and is
alerted exactly once. -/
lemma removed_by_sweep {now : ℚ} {m : PendingMap}
    (hkeys : (m.map Prod.fst).Nodup) {k : String} {t : ℚ}
    (hmem : (k, t) ∈ m)
    (hrem : ¬ ∃ t', (k, t') ∈ (strat_sweep now m).1) :
    now - t > ORDER_TIMEOUT_S ∧ (strat_sweep now m).2.count k = 1 := by
  have hkmem : k ∈ (m.filter
      (fun x => now - x.2 > ORDER_TIMEOUT_S)).map Prod.fst := by
    by_contra hk
    exact hrem ⟨t, (mem_strat_sweep now m (k, t)).mpr ⟨hmem, hk⟩⟩
  refine ⟨(stale_key_mem hkeys hmem now).mp hkmem, ?_⟩
  exact List.count_eq_one_of_mem
    (hkeys.sublist ((List.filter_sublist m).map Prod.fst)) hkmem

/-- A stale tracked entry does not survive the sweep. -/
lemma stale_removed {now : ℚ} {m : PendingMap} {k : String} {t : ℚ}
    (hmem : (k, t) ∈ m) (hst : now - t > ORDER_TIMEOUT_S) :
    ¬ ∃ t', (k, t') ∈ (strat_sweep now m).1 := by
  rintro ⟨t', ht'⟩
  have h2 := (mem_strat_sweep now m (k, t')).mp ht'
  exact h2.2 (List.mem_map.mpr
    ⟨(k, t), List.mem_filter.mpr ⟨hmem, by simpa using hst⟩, rfl⟩)

/-- Message handling preserves key uniqueness of the pending map. -/
lemma handleMsg_keys_nodup (now : ℚ) (freshKey : String) (tm : Bool)
    (msg : StratMsg) (pending : PendingMap)
    (hkeys : (pending.map Prod.fst).Nodup)
    (hfresh : pending.any (fun e => e.1 = freshKey) = false) :
    ((strat_handleMsg now freshKey tm msg pending).1.map Prod.fst).Nodup := by
  cases msg with
  | price sym p =>
      by_cases hp : p < strat_threshold
      · simp only [strat_handleMsg, hp, if_true, dictInsert, hfresh,
          Bool.false_eq_true, if_false, List.map_append]
        refine List.Nodup.append hkeys (by simp) ?_
        intro x hx hx2
        simp only [List.map_cons, List.map_nil, List.mem_singleton] at hx2
        obtain ⟨e, he, hfst⟩ := List.mem_map.mp hx
        exact any_key_eq_false hfresh e he (hfst.trans hx2)
      · simpa [strat_handleMsg, hp] using hkeys
  | confirmation ko =>
      cases ko with
      | none => simpa [strat_handleMsg] using hkeys
      | some k =>
          by_cases hin : pending.any (fun e => e.1 = k) = true
          · simp only [strat_handleMsg, hin, if_true, dictDelete]
            exact hkeys.sublist ((List.filter_sublist pending).map Prod.fst)
          · simp only [strat_handleMsg, hin, if_false]
            exact hkeys
  | timeout => simpa [strat_handleMsg] using hkeys

/-- A tracked entry survives message handling unless the message is a
confirmation carrying exactly its key. -/
lemma handleMsg_mem (now : ℚ) (freshKey : String) (tm : Bool)
    (msg : StratMsg) (pending : PendingMap)
    (hfresh : pending.any (fun e => e.1 = freshKey) = false)
    {k : String} {t : ℚ} (hmem : (k, t) ∈ pending)
    (hne : msg ≠ .confirmation (some k)) :
    (k, t) ∈ (strat_handleMsg now freshKey tm msg pending).1 := by
  cases msg with
  | price sym p =>
      by_cases hp : p < strat_threshold
      · simp only [strat_handleMsg, hp, if_true, dictInsert, hfresh,
          Bool.false_eq_true, if_false]
        exact List.mem_append_left _ hmem
      · simpa [strat_handleMsg, hp] using hmem
  | confirmation ko =>
      cases ko with
      | none => simpa [strat_handleMsg] using hmem
      | some k' =>
          have hkk : k ≠ k' := by
            intro h
            exact hne (by rw [h])
          by_cases hin : pending.any (fun e => e.1 = k') = true
          · simp only [strat_handleMsg, hin, if_true]
            exact mem_dictDelete.mpr ⟨hmem, hkk⟩
          · simp only [strat_handleMsg, hin, if_false]
            exact hmem
  | timeout => simpa [strat_handleMsg] using hmem

/-- C6: the two-state lifecycle of a Pending Order within one loop
iteration. (1) a tracked key that disappears was removed either by a
confirmation carrying it (then zero alerts for it) or by the timeout
sweep with its age over ORDER_TIMEOUT_S (then exactly one alert);
(2) a confirmation carrying a tracked key removes it; (3) a tracked
entry whose age exceeds ORDER_TIMEOUT_S is removed; (4) no order
published in the iteration ever carries a tracked (in particular a
removed) key, so removed orders are never retried or re-published;
(5) a confirmation whose key is absent from the map leaves the map
unchanged by the message-handling phase. -/
theorem pending_order_lifecycle (now : ℚ) (freshKey : String)
    (testMode : Bool) (msg : StratMsg) (pending : PendingMap)
    (hkeys : (pending.map Prod.fst).Nodup)
    (hfresh : pending.any (fun e => e.1 = freshKey) = false) :
    (∀ k t, (k, t) ∈ pending →
        (¬ ∃ t', (k, t') ∈ (strat_step now freshKey testMode msg pending).1) →
        (msg = .confirmation (some k)
            ∧ (strat_step now freshKey testMode msg pending).2.2.count k = 0)
          ∨ (now - t > ORDER_TIMEOUT_S
            ∧ (strat_step now freshKey testMode msg pending).2.2.count k = 1))
    ∧ (∀ k t, (k, t) ∈ pending → msg = .confirmation (some k) →
        ¬ ∃ t', (k, t') ∈ (strat_step now freshKey testMode msg pending).1)
    ∧ (∀ k t, (k, t) ∈ pending → now - t > ORDER_TIMEOUT_S →
        ¬ ∃ t', (k, t') ∈ (strat_step now freshKey testMode msg pending).1)
    ∧ (∀ k t, (k, t) ∈ pending →
        ∀ o ∈ (strat_step now freshKey testMode msg pending).2.1,
          o.idempotency_key ≠ some k)
    ∧ (∀ ko, msg = .confirmation ko →
        (∀ k', ko = some k' → pending.any (fun e => e.1 = k') = false) →
        (strat_handleMsg now freshKey testMode msg pending).1 = pending) := by
  have hm1keys := handleMsg_keys_nodup now freshKey testMode msg pending
    hkeys hfresh
  have hconf : ∀ k t, (k, t) ∈ pending → msg = .confirmation (some k) →
      ∀ t', (k, t') ∉ (strat_handleMsg now freshKey testMode msg pending).1 := by
    intro k t hmem hmsg t' hin
    subst hmsg
    have hany := any_key_eq_true hmem
    simp only [strat_handleMsg, hany, if_true] at hin
    exact (mem_dictDelete.mp hin).2 rfl
  refine ⟨?_, ?_, ?_, ?_, ?_⟩
  · intro k t hmem hrem
    by_cases hmsg : msg = .confirmation (some k)
    · left
      refine ⟨hmsg, ?_⟩
      apply List.count_eq_zero.mpr
      intro hk
      have hk' : k ∈ ((strat_handleMsg now freshKey testMode msg
          pending).1.filter
          (fun x => now - x.2 > ORDER_TIMEOUT_S)).map Prod.fst := hk
      obtain ⟨e, he, hfst⟩ := List.mem_map.mp hk'
      have he' := (List.mem_filter.mp he).1
      subst hmsg
      have hany := any_key_eq_true hmem
      simp only [strat_handleMsg, hany, if_true] at he'
      exact (mem_dictDelete.mp he').2 hfst
    · right
      have hm1 := handleMsg_mem now freshKey testMode msg pending
        hfresh hmem hmsg
      exact removed_by_sweep hm1keys hm1 hrem
  · intro k t hmem hmsg
    rintro ⟨t', ht'⟩
    have h2 := (mem_strat_sweep now
      (strat_handleMsg now freshKey testMode msg pending).1 (k, t')).mp ht'
    exact hconf k t hmem hmsg t' h2.1
  · intro k t hmem hst
    by_cases hmsg : msg = .confirmation (some k)
    · rintro ⟨t', ht'⟩
      have h2 := (mem_strat_sweep now
        (strat_handleMsg now freshKey testMode msg pending).1 (k, t')).mp ht'
      exact hconf k t hmem hmsg t' h2.1
    · have hm1 := handleMsg_mem now freshKey testMode msg pending
        hfresh hmem hmsg
      exact stale_removed hm1 hst
  · intro k t hmem o ho hkey
    have ho' : o ∈ (strat_handleMsg now freshKey testMode msg pending).2 := ho
    cases msg with
    | price sym p =>
        by_cases hp : p < strat_threshold
        · simp only [strat_handleMsg, hp, if_true,
            List.mem_singleton] at ho'
          subst ho'
          have hne := any_key_eq_false hfresh (k, t) hmem
          have hk2 : freshKey = k := by simpa using hkey
          exact hne hk2.symm
        · simp [strat_handleMsg, hp] at ho'
    | confirmation ko =>
        cases ko with
        | none => simp [strat_handleMsg] at ho'
        | some k' =>
            by_cases hin : pending.any (fun e => e.1 = k') = true <;>
              simp [strat_handleMsg, hin] at ho'
    | timeout => simp [strat_handleMsg] at ho'
  · intro ko hmsg habs
    subst hmsg
    cases ko with
    | none => rfl
    | some k' =>
        have h := habs k' rfl
        simp [strat_handleMsg, h]

theorem pending_order_lifecycle_witness :
    (∀ k t, (k, t) ∈ [(("ord1", 0) : String × ℚ)] →
        (¬ ∃ t', (k, t') ∈ (strat_step 400 "ord2" false .timeout
          [(("ord1", 0) : String × ℚ)]).1) →
        (StratMsg.timeout = .confirmation (some k)
            ∧ (strat_step 400 "ord2" false .timeout
                [(("ord1", 0) : String × ℚ)]).2.2.count k = 0)
          ∨ ((400 : ℚ) - t > ORDER_TIMEOUT_S
            ∧ (strat_step 400 "ord2" false .timeout
                [(("ord1", 0) : String × ℚ)]).2.2.count k = 1))
    ∧ (∀ k t, (k, t) ∈ [(("ord1", 0) : String × ℚ)] →
        StratMsg.timeout = .confirmation (some k) →
        ¬ ∃ t', (k, t') ∈ (strat_step 400 "ord2" false .timeout
          [(("ord1", 0) : String × ℚ)]).1)
    ∧ (∀ k t, (k, t) ∈ [(("ord1", 0) : String × ℚ)] →
        (400 : ℚ) - t > ORDER_TIMEOUT_S →
        ¬ ∃ t', (k, t') ∈ (strat_step 400 "ord2" false .timeout
          [(("ord1", 0) : String × ℚ)]).1)
    ∧ (∀ k t, (k, t) ∈ [(("ord1", 0) : String × ℚ)] →
        ∀ o ∈ (strat_step 400 "ord2" false .timeout
          [(("ord1", 0) : String × ℚ)]).2.1,
          o.idempotency_key ≠ some k)
    ∧ (∀ ko, StratMsg.timeout = .confirmation ko →
        (∀ k', ko = some k' →
          ([(("ord1", 0) : String × ℚ)]).any (fun e => e.1 = k') = false) →
        (strat_handleMsg 400 "ord2" false .timeout
          [(("ord1", 0) : String × ℚ)]).1 = [(("ord1", 0) : String × ℚ)]) :=
  pending_order_lifecycle 400 "ord2" false .timeout [("ord1", 0)]
    (by decide) (by decide)

end Avenor
